import Mathlib

/-!
Verification of the ATS (Applicant Tracking System) keyword-match scorer of
`server.js`, route `POST /api/calculate-ats` (lines 106-146).

Modelling conventions:
* JS strings are embedded as `List Char`; the JS string methods used by the
  route (`split(',')`, `trim()`, `toLowerCase()`, `includes`) are embedded as
  structurally recursive functions below, faithful to ECMAScript semantics on
  the character range that occurs here (ASCII).
* JS numbers are embedded as exact rationals: `matchCount` and
  `keywords.length` are small integers, for which `(matchCount /
  keywords.length) * 100` and `Math.round` are exact.
* The one partial operation, the division `matchCount / keywords.length`
  when `keywords.length = 0` (JS yields `NaN`, and `Math.round(NaN)` is
  `NaN`), is embedded by returning `none`: the source has no guard for this
  case, so the embedding makes the undefinedness explicit instead.
* The route handler is embedded as a function of the request plus two
  injected capabilities (PDF text extraction and the generative-language
  service), returning the response together with a flag recording whether
  the generation service was invoked.
-/

namespace AtsScorer

/-- Characters removed by JS `String.prototype.trim`, modelled for the
ASCII whitespace range. -/
def jsIsSpace (c : Char) : Bool :=
  c == ' ' || c == '\t' || c == '\n' || c == '\r' || c == '\x0b' || c == '\x0c'

/-- JS `String.prototype.trim`: remove leading and trailing whitespace. -/
def trimList (l : List Char) : List Char :=
  ((l.dropWhile jsIsSpace).reverse.dropWhile jsIsSpace).reverse

/-- JS `String.prototype.toLowerCase`, modelled on the ASCII range by
mapping `Char.toLower` over the characters. -/
def listToLower (l : List Char) : List Char :=
  l.map Char.toLower

/-- JS `str.split(',')`: split at every comma. Note ECMAScript semantics:
the result always has at least one element; `"".split(',')` is `[""]`, and
a trailing or doubled comma produces empty-string elements. -/
def splitOnComma : List Char → List (List Char)
  | [] => [[]]
  | c :: rest =>
    if c = ',' then
      [] :: splitOnComma rest
    else
      match splitOnComma rest with
      | [] => [[c]]
      | kw :: kws => (c :: kw) :: kws

/-- Helper for `jsIncludes`: `isStartOf n h` tests whether `n` is an
initial segment of `h`. -/
def isStartOf : List Char → List Char → Bool
  | [], _ => true
  | _ :: _, [] => false
  | c :: cs, d :: ds => c == d && isStartOf cs ds

/-- JS `hay.includes(needle)`: `needle` occurs contiguously inside `hay`
(an empty needle is contained in every string). -/
def jsIncludes (needle : List Char) : List Char → Bool
  | [] => isStartOf needle []
  | c :: rest => isStartOf needle (c :: rest) || jsIncludes needle rest

/-- Line 128 of `server.js`:
`keywordsText.split(',').map(kw => kw.trim().toLowerCase())`. -/
def splitKeywords (keywordsText : String) : List (List Char) :=
  (splitOnComma keywordsText.data).map (fun kw => listToLower (trimList kw))

/-- Lines 130-137 of `server.js`: the `forEach` loop that increments
`matchCount` once for each keyword with `resumeTextLower.includes(keyword)`
true. -/
def matchCount (resumeTextLower : List Char) (keywords : List (List Char)) : Nat :=
  keywords.countP (fun kw => jsIncludes kw resumeTextLower)

/-- JS `Math.round` on a (non-NaN, non-negative here) number: round half
toward positive infinity, i.e. `⌊q + 1/2⌋`. -/
def jsMathRound (q : ℚ) : ℤ :=
  ⌊q + 1/2⌋

/-- Line 139 of `server.js`:
`Math.round((matchCount / keywords.length) * 100)`. The source has no guard
for `keywords.length = 0`; in JS that case yields `NaN` (`0/0`), embedded
here as `none`. -/
def scoreExpr (m n : Nat) : Option ℤ :=
  if n = 0 then none else some (jsMathRound ((m : ℚ) / (n : ℚ) * 100))

/-- Lines 128-139 of `server.js`: the pure scoring pipeline of the
`/api/calculate-ats` route, from the extracted resume text and the raw
generation-service response to the reported score. -/
def calculateAts (resumeText keywordsText : String) : Option ℤ :=
  scoreExpr
    (matchCount (listToLower resumeText.data) (splitKeywords keywordsText))
    (splitKeywords keywordsText).length

/-- Lines 117-123 of `server.js`: the keyword-extraction prompt template
sent to the generation service. -/
def keywordsPrompt (jobDescription : String) : String :=
  "\n            From the following job description, extract the top 15 most important technical skills,\n            soft skills, and qualifications. Return them as a simple comma-separated list.\n            Do not add any extra explanation or formatting.\n\n            Job Description: \"" ++ jobDescription ++ "\"\n        "

/-- Response of the `/api/calculate-ats` route: HTTP 400 with a message,
HTTP 500 with a message, or HTTP 200 with the JSON score (an absent score
models the `NaN` case). -/
inductive AtsResponse where
  | validationError (message : String)
  | serverError (message : String)
  | ok (score : Option ℤ)
deriving DecidableEq

/-- Request to the `/api/calculate-ats` route: an optional uploaded file
(`req.file`, of an abstract binary type `F`) and an optional job
description field (`req.body.jobDescription`). -/
structure AtsRequest (F : Type) where
  file : Option F
  jobDescription : Option String

/-- Lines 106-146 of `server.js`: the whole route handler. `extractText`
embeds `pdf-parse` and `generate` embeds the generation-service call, both
as injected fallible capabilities. The returned `Bool` records whether
`generate` was invoked. The validation check embeds
`if (!req.file || !req.body.jobDescription)`; the empty string is falsy in
JS, hence the `jd = ""` test. -/
def handleCalculateAts {F : Type} (req : AtsRequest F)
    (extractText : F → Except String String)
    (generate : String → Except String String) : AtsResponse × Bool :=
  match req.file, req.jobDescription with
  | some file, some jd =>
    if jd = "" then
      (AtsResponse.validationError "Resume file and job description are required.", false)
    else
      match extractText file with
      | Except.error _ =>
        (AtsResponse.serverError "An error occurred while calculating the ATS score.", false)
      | Except.ok resumeText =>
        match generate (keywordsPrompt jd) with
        | Except.error _ =>
          (AtsResponse.serverError "An error occurred while calculating the ATS score.", true)
        | Except.ok keywordsText =>
          (AtsResponse.ok (calculateAts resumeText keywordsText), true)
  | _, _ =>
    (AtsResponse.validationError "Resume file and job description are required.", false)

/-! Helper lemmas (shared; none of these is a claim theorem). -/

/-- `isStartOf` decides the initial-segment relation. -/
theorem isStartOf_iff (n : List Char) : ∀ h : List Char,
    isStartOf n h = true ↔ ∃ t, h = n ++ t := by
  induction n with
  | nil => intro h; simp [isStartOf]
  | cons c cs ih =>
    intro h
    cases h with
    | nil => simp [isStartOf]
    | cons d ds =>
      simp only [isStartOf, Bool.and_eq_true, beq_iff_eq, ih, List.cons_append]
      constructor
      · rintro ⟨rfl, t, rfl⟩
        exact ⟨t, rfl⟩
      · rintro ⟨t, ht⟩
        rw [List.cons_eq_cons] at ht
        exact ⟨ht.1.symm, t, ht.2⟩

/-- `jsIncludes` decides contiguous-substring containment. -/
theorem jsIncludes_iff (needle : List Char) : ∀ hay : List Char,
    jsIncludes needle hay = true ↔ ∃ p q, hay = p ++ needle ++ q := by
  intro hay
  induction hay with
  | nil =>
    simp only [jsIncludes, isStartOf_iff]
    constructor
    · rintro ⟨t, ht⟩
      exact ⟨[], t, by simpa using ht⟩
    · rintro ⟨p, q, hpq⟩
      rcases List.append_eq_nil.mp ((List.append_assoc p needle q ▸ hpq).symm) with ⟨hp, hnq⟩
      rcases List.append_eq_nil.mp hnq with ⟨hn, hq⟩
      exact ⟨[], by simp [hn]⟩
  | cons c rest ih =>
    simp only [jsIncludes, Bool.or_eq_true, isStartOf_iff, ih]
    constructor
    · rintro (⟨t, ht⟩ | ⟨p, q, hpq⟩)
      · exact ⟨[], t, by simpa using ht⟩
      · exact ⟨c :: p, q, by simp [hpq]⟩
    · rintro ⟨p, q, hpq⟩
      cases p with
      | nil => exact Or.inl ⟨q, by simpa using hpq⟩
      | cons x xs =>
        rw [List.cons_append, List.cons_append, List.cons_eq_cons] at hpq
        exact Or.inr ⟨xs, q, hpq.2⟩

/-- The empty keyword is contained in every string. -/
theorem jsIncludes_nil_needle (hay : List Char) : jsIncludes [] hay = true :=
  (jsIncludes_iff [] hay).mpr ⟨[], hay, rfl⟩

/-- JS `split` never returns an empty array. -/
theorem splitOnComma_ne_nil (l : List Char) : splitOnComma l ≠ [] := by
  induction l with
  | nil => simp [splitOnComma]
  | cons c rest ih =>
    simp only [splitOnComma]
    split
    · simp
    · split <;> simp

/-- The keyword list built on line 128 is never empty. -/
theorem splitKeywords_ne_nil (keywordsText : String) : splitKeywords keywordsText ≠ [] := by
  simp only [splitKeywords, ne_eq, List.map_eq_nil_iff]
  exact splitOnComma_ne_nil _

/-- Evaluation rule for the scoring expression via floor bounds. -/
theorem scoreExpr_eq_of_bounds (m n : Nat) (z : ℤ) (hn : n ≠ 0)
    (h1 : (z : ℚ) ≤ (m : ℚ) / (n : ℚ) * 100 + 1/2)
    (h2 : (m : ℚ) / (n : ℚ) * 100 + 1/2 < z + 1) :
    scoreExpr m n = some z := by
  simp only [scoreExpr, if_neg hn, jsMathRound]
  exact congrArg some (Int.floor_eq_iff.mpr ⟨h1, h2⟩)

end AtsScorer


namespace AtsScorer

/-- Range of the scoring expression once the keyword count is positive and
the match count is bounded by it. -/
theorem scoreExpr_range (m n : Nat) (hn : n ≠ 0) (hm : m ≤ n) :
    ∃ s : ℤ, scoreExpr m n = some s ∧ 0 ≤ s ∧ s ≤ 100 := by
  have hnpos : (0 : ℚ) < (n : ℚ) := by exact_mod_cast Nat.pos_of_ne_zero hn
  have hdiv1 : (m : ℚ) / (n : ℚ) ≤ 1 := (div_le_one hnpos).mpr (by exact_mod_cast hm)
  have hdiv0 : (0 : ℚ) ≤ (m : ℚ) / (n : ℚ) := by positivity
  refine ⟨jsMathRound ((m : ℚ) / (n : ℚ) * 100), ?_, ?_, ?_⟩
  · simp [scoreExpr, hn]
  · unfold jsMathRound
    have h0 : ((0 : ℤ) : ℚ) ≤ (m : ℚ) / (n : ℚ) * 100 + 1/2 := by push_cast; nlinarith
    exact Int.le_floor.mpr h0
  · unfold jsMathRound
    have hlt : (m : ℚ) / (n : ℚ) * 100 + 1/2 < ((101 : ℤ) : ℚ) := by push_cast; nlinarith
    have := Int.floor_lt.mpr hlt
    omega

/-- Claim C1: for every resume text and every non-empty keyword list obtained
by splitting the generation-service response on commas and trimming and
lower-casing each element, the ATS score returned by the calculate-ats
pipeline equals `round(100 * matchCount / len(KeywordList))`, where
`matchCount` counts the keywords contained as substrings in the lower-cased
resume text (second conjunct: the counting predicate is exactly substring
containment). -/
theorem calculateAts_score_formula (resumeText keywordsText : String)
    (h : splitKeywords keywordsText ≠ []) :
    calculateAts resumeText keywordsText =
      some (jsMathRound
        (100 * (matchCount (listToLower resumeText.data) (splitKeywords keywordsText) : ℚ) /
          ((splitKeywords keywordsText).length : ℚ))) ∧
    ∀ kw : List Char,
      jsIncludes kw (listToLower resumeText.data) = true ↔
        ∃ p q, listToLower resumeText.data = p ++ kw ++ q := by
  have hn : (splitKeywords keywordsText).length ≠ 0 := by
    simpa [List.length_eq_zero] using h
  constructor
  · have harg :
        (matchCount (listToLower resumeText.data) (splitKeywords keywordsText) : ℚ) /
            ((splitKeywords keywordsText).length : ℚ) * 100 =
          100 * (matchCount (listToLower resumeText.data) (splitKeywords keywordsText) : ℚ) /
            ((splitKeywords keywordsText).length : ℚ) := by
      ring
    simp only [calculateAts, scoreExpr, if_neg hn, harg]
  · intro kw
    exact jsIncludes_iff kw _

/-- Witness for C1 at a concrete input. -/
theorem calculateAts_score_formula_witness :
    splitKeywords "python, sql" ≠ [] ∧
    (calculateAts "python developer" "python, sql" =
        some (jsMathRound
          (100 * (matchCount (listToLower "python developer".data) (splitKeywords "python, sql") : ℚ) /
            ((splitKeywords "python, sql").length : ℚ))) ∧
      ∀ kw : List Char,
        jsIncludes kw (listToLower "python developer".data) = true ↔
          ∃ p q, listToLower "python developer".data = p ++ kw ++ q) :=
  ⟨by decide, calculateAts_score_formula "python developer" "python, sql" (by decide)⟩

/-- Claim C2: the scoring step is unguarded against an empty keyword list:
with zero keywords the division `matchCount / keywords.length` is a division
by zero and the score is undefined (JS computes `NaN`; embedded as `none`). -/
theorem scoreExpr_empty_keywords_division_by_zero (m : Nat) : scoreExpr m 0 = none :=
  rfl

/-- Claim C3: a request missing the resume file or the job description is
rejected with the validation message "Resume file and job description are
required." and the generation service is never invoked. -/
theorem handleCalculateAts_missing_input {F : Type} (req : AtsRequest F)
    (extractText : F → Except String String)
    (generate : String → Except String String)
    (h : req.file = none ∨ req.jobDescription = none) :
    handleCalculateAts req extractText generate =
      (AtsResponse.validationError "Resume file and job description are required.", false) := by
  rcases req with ⟨f, jd⟩
  rcases h with h | h
  · cases h
    cases jd <;> rfl
  · cases h
    cases f <;> rfl

/-- Witness for C3: a request with no uploaded file is rejected without
calling the generation service. -/
theorem handleCalculateAts_missing_input_witness :
    handleCalculateAts (⟨none, some "job description"⟩ : AtsRequest Unit)
        (fun _ => Except.ok "resume text") (fun _ => Except.ok "python, sql") =
      (AtsResponse.validationError "Resume file and job description are required.", false) :=
  handleCalculateAts_missing_input _ _ _ (Or.inl rfl)

/-- Claim C4: for every valid input (any extracted resume text and any
generation-service response) the returned score is an integer in [0, 100]. -/
theorem calculateAts_score_in_range (resumeText keywordsText : String) :
    ∃ s : ℤ, calculateAts resumeText keywordsText = some s ∧ 0 ≤ s ∧ s ≤ 100 := by
  have hn : (splitKeywords keywordsText).length ≠ 0 := by
    simpa [List.length_eq_zero] using splitKeywords_ne_nil keywordsText
  have hmle :
      matchCount (listToLower resumeText.data) (splitKeywords keywordsText) ≤
        (splitKeywords keywordsText).length :=
    List.countP_le_length _
  exact scoreExpr_range _ _ hn hmle

end AtsScorer

namespace AtsScorer

/-- Scoring expression when every keyword matches. -/
theorem scoreExpr_self (n : Nat) (hn : n ≠ 0) : scoreExpr n n = some 100 := by
  have hnpos : (0 : ℚ) < (n : ℚ) := by exact_mod_cast Nat.pos_of_ne_zero hn
  have hd : (n : ℚ) / (n : ℚ) = 1 := div_self hnpos.ne'
  apply scoreExpr_eq_of_bounds _ _ _ hn <;> rw [hd] <;> push_cast <;> norm_num

/-- Scoring expression when no keyword matches. -/
theorem scoreExpr_no_matches (n : Nat) (hn : n ≠ 0) : scoreExpr 0 n = some 0 := by
  apply scoreExpr_eq_of_bounds _ _ _ hn <;> push_cast <;> norm_num

/-- Claim C5: with the (always non-empty) keyword list from the split, if
every keyword occurs in the lower-cased resume text the score is 100, and if
no keyword occurs the score is 0. -/
theorem calculateAts_all_or_none (resumeText keywordsText : String) :
    ((∀ kw ∈ splitKeywords keywordsText,
        jsIncludes kw (listToLower resumeText.data) = true) →
      calculateAts resumeText keywordsText = some 100) ∧
    ((∀ kw ∈ splitKeywords keywordsText,
        jsIncludes kw (listToLower resumeText.data) = false) →
      calculateAts resumeText keywordsText = some 0) := by
  have hn : (splitKeywords keywordsText).length ≠ 0 := by
    simpa [List.length_eq_zero] using splitKeywords_ne_nil keywordsText
  constructor
  · intro hall
    have hm : matchCount (listToLower resumeText.data) (splitKeywords keywordsText) =
        (splitKeywords keywordsText).length := List.countP_eq_length.mpr hall
    simp only [calculateAts, hm]
    exact scoreExpr_self _ hn
  · intro hnone
    have hm : matchCount (listToLower resumeText.data) (splitKeywords keywordsText) = 0 :=
      List.countP_eq_zero.mpr (fun kw hkw => by simp [hnone kw hkw])
    simp only [calculateAts, hm]
    exact scoreExpr_no_matches _ hn

/-- Witness for C5 at concrete inputs: all keywords present gives 100, none
present gives 0. -/
theorem calculateAts_all_or_none_witness :
    calculateAts "xx a b xx" "a,b" = some 100 ∧ calculateAts "zz" "a,b" = some 0 :=
  ⟨(calculateAts_all_or_none "xx a b xx" "a,b").1 (by decide),
   (calculateAts_all_or_none "zz" "a,b").2 (by decide)⟩

/-- Claim C6: matching is case-insensitive: any resume text containing
"Python" matches the keyword "python" (both sides are lower-cased before the
containment test), and with "python" as the sole generated keyword the score
is 100. -/
theorem calculateAts_case_insensitive (resumeText : String) (p q : List Char)
    (h : resumeText.data = p ++ "Python".data ++ q) :
    jsIncludes "python".data (listToLower resumeText.data) = true ∧
    calculateAts resumeText "python" = some 100 := by
  have hmid : List.map Char.toLower "Python".data = "python".data := by decide
  have hlow : listToLower resumeText.data =
      listToLower p ++ "python".data ++ listToLower q := by
    simp only [listToLower, h, List.map_append, hmid]
  have hit : jsIncludes "python".data (listToLower resumeText.data) = true :=
    (jsIncludes_iff _ _).mpr ⟨listToLower p, listToLower q, by rw [hlow]⟩
  refine ⟨hit, ?_⟩
  have hks : splitKeywords "python" = ["python".data] := by decide
  have hm : matchCount (listToLower resumeText.data) ["python".data] = 1 := by
    simp [matchCount, List.countP_cons, hit]
  simp only [calculateAts, hks, hm]
  simpa using scoreExpr_self 1 one_ne_zero

/-- Witness for C6: the resume "I use Python" scores 100 against the
keyword "python". -/
theorem calculateAts_case_insensitive_witness :
    jsIncludes "python".data (listToLower "I use Python".data) = true ∧
    calculateAts "I use Python" "python" = some 100 :=
  calculateAts_case_insensitive "I use Python" "I use ".data [] (by decide)

/-- Claim C7: matching is literal substring containment, not whole-word
matching: any resume text containing "typescript" matches the keyword
"script", and with "script" as the sole generated keyword the score is
100. -/
theorem calculateAts_substring_not_whole_word (resumeText : String) (p q : List Char)
    (h : resumeText.data = p ++ "typescript".data ++ q) :
    jsIncludes "script".data (listToLower resumeText.data) = true ∧
    calculateAts resumeText "script" = some 100 := by
  have hmid : List.map Char.toLower "typescript".data = "type".data ++ "script".data := by
    decide
  have hlow : listToLower resumeText.data =
      (listToLower p ++ "type".data) ++ "script".data ++ listToLower q := by
    simp only [listToLower, h, List.map_append, hmid, List.append_assoc]
  have hit : jsIncludes "script".data (listToLower resumeText.data) = true :=
    (jsIncludes_iff _ _).mpr ⟨listToLower p ++ "type".data, listToLower q, by rw [hlow]⟩
  refine ⟨hit, ?_⟩
  have hks : splitKeywords "script" = ["script".data] := by decide
  have hm : matchCount (listToLower resumeText.data) ["script".data] = 1 := by
    simp [matchCount, List.countP_cons, hit]
  simp only [calculateAts, hks, hm]
  simpa using scoreExpr_self 1 one_ne_zero

/-- Witness for C7: the resume "typescript dev" scores 100 against the
keyword "script". -/
theorem calculateAts_substring_not_whole_word_witness :
    jsIncludes "script".data (listToLower "typescript dev".data) = true ∧
    calculateAts "typescript dev" "script" = some 100 :=
  calculateAts_substring_not_whole_word "typescript dev" [] " dev".data (by decide)

/-- Claim C8: the match count is additive over the keyword list (so
duplicate keywords count independently), each single keyword contributes
exactly its presence bit (at most one match, however often it occurs in the
resume text), and the match count never exceeds the keyword count. -/
theorem matchCount_presence_semantics (r : List Char) (ks₁ ks₂ : List (List Char))
    (k : List Char) :
    matchCount r (ks₁ ++ ks₂) = matchCount r ks₁ + matchCount r ks₂ ∧
    matchCount r [k] = (if jsIncludes k r then 1 else 0) ∧
    matchCount r [k] ≤ 1 ∧
    matchCount r ks₁ ≤ ks₁.length := by
  have h2 : matchCount r [k] = if jsIncludes k r then 1 else 0 := by
    simp [matchCount, List.countP_cons]
  refine ⟨by simp [matchCount, List.countP_append], h2, ?_, List.countP_le_length _⟩
  rw [h2]
  split <;> simp

/-- Claim C9: the two concrete scenarios of the spec: keywords
`["python","sql","communication"]` with a resume matching exactly the first
two scores 67, and the single unmatched keyword `["leadership"]` scores 0. -/
theorem calculateAts_concrete_scenarios :
    (∀ r kt : String,
        splitKeywords kt = ["python".data, "sql".data, "communication".data] →
        jsIncludes "python".data (listToLower r.data) = true →
        jsIncludes "sql".data (listToLower r.data) = true →
        jsIncludes "communication".data (listToLower r.data) = false →
        calculateAts r kt = some 67) ∧
    (∀ r kt : String,
        splitKeywords kt = ["leadership".data] →
        jsIncludes "leadership".data (listToLower r.data) = false →
        calculateAts r kt = some 0) := by
  constructor
  · intro r kt hk h1 h2 h3
    have hm : matchCount (listToLower r.data)
        ["python".data, "sql".data, "communication".data] = 2 := by
      simp [matchCount, List.countP_cons, h1, h2, h3]
    simp only [calculateAts, hk, hm]
    show scoreExpr 2 3 = some 67
    apply scoreExpr_eq_of_bounds 2 3 67 (by norm_num) <;> push_cast <;> norm_num
  · intro r kt hk h0
    have hm : matchCount (listToLower r.data) ["leadership".data] = 0 := by
      simp [matchCount, List.countP_cons, h0]
    simp only [calculateAts, hk, hm]
    show scoreExpr 0 1 = some 0
    exact scoreExpr_no_matches 1 one_ne_zero

/-- Witness for C9 at concrete resumes and generation responses. -/
theorem calculateAts_concrete_scenarios_witness :
    calculateAts "python and sql here" "python,sql,communication" = some 67 ∧
    calculateAts "nothing relevant" "leadership" = some 0 :=
  ⟨calculateAts_concrete_scenarios.1 "python and sql here" "python,sql,communication"
      (by decide) (by decide) (by decide) (by decide),
   calculateAts_concrete_scenarios.2 "nothing relevant" "leadership"
      (by decide) (by decide)⟩

/-- Claim C10: splitting on commas always yields at least one element, so
the keyword list is never empty and the score division never divides by
zero; an empty generation response yields the keyword list `[""]`, the empty
keyword is contained in every resume text (as is any empty element from a
trailing or doubled comma), and the score is then 100. -/
theorem splitKeywords_never_empty_no_division_by_zero :
    (∀ kt : String, splitKeywords kt ≠ []) ∧
    (∀ r kt : String, calculateAts r kt ≠ none) ∧
    splitKeywords "" = [[]] ∧
    (∀ r : String, calculateAts r "" = some 100) ∧
    (∀ hay : List Char, jsIncludes [] hay = true) := by
  refine ⟨splitKeywords_ne_nil, ?_, by decide, ?_, jsIncludes_nil_needle⟩
  · intro r kt
    have hn : (splitKeywords kt).length ≠ 0 := by
      simpa [List.length_eq_zero] using splitKeywords_ne_nil kt
    simp [calculateAts, scoreExpr, hn]
  · intro r
    have hks : splitKeywords "" = [[]] := by decide
    have hm : matchCount (listToLower r.data) [[]] = 1 := by
      simp [matchCount, List.countP_cons, jsIncludes_nil_needle]
    simp only [calculateAts, hks, hm]
    simpa using scoreExpr_self 1 one_ne_zero

end AtsScorer
